import Mathlib

/-!
Shallow embedding of the USB_LED repository's core (usb_led as of
src/unnamed/part_001): the duty-cycle model (`Config.calculate_durations`,
`Config.calculate_periode_values`), the rate monitor
(`get_transfered_bytes`, `accumulate_bytes_for`,
`get_and_reset_accumulated_bytes`), and the pre-loop startup of `main`.

Modelling conventions:
- `uint64_t` values are `ℕ` carrying the invariant `< 2^64`; the two
  subtractions the source performs on `uint64_t` are embedded as `u64sub`
  with the explicit wrap-around `% 2^64`.
- `double` arithmetic is embedded as exact `ℚ` arithmetic.  The one place
  where IEEE semantics diverge qualitatively from `ℚ` is division by zero:
  when `max_transfer_rate == min_transfer_rate` the source computes
  `0.0 / 0.0 = NaN` and then feeds NaN through `static_cast<int64_t>`
  (undefined behaviour).  `calculate_durations` therefore returns
  `Option (ℤ × ℤ)`, with `none` marking exactly the NaN/undefined case
  (zero divisor) and `some` the defined results.
- `static_cast` from `double` to an integer type truncates toward zero:
  `truncQ`.
- `duration_t = chrono::milliseconds` is its `ℤ` tick count.
-/

/-- Modulus of `uint64_t` arithmetic. -/
def u64size : ℕ := 2 ^ 64

/-- `uint64_t` subtraction `a - b` (wraps modulo `2^64`), for `a b < 2^64`. -/
def u64sub (a b : ℕ) : ℕ := (a + u64size - b) % u64size

/-- `static_cast` from `double` to a (wide enough) signed integer type:
truncation toward zero. -/
def truncQ (q : ℚ) : ℤ := if 0 ≤ q then ⌊q⌋ else -⌊-q⌋

/-- `std::clamp(v, lo, hi)` on `uint64_t`
(`v < lo ? lo : hi < v ? hi : v`). -/
def clampU64 (v lo hi : ℕ) : ℕ := if v < lo then lo else if hi < v then hi else v

/-- `to_sec` applied to a `duration_t` of `ms` milliseconds: the exact
value `ms / 1000` (seconds, as a `double`, embedded in `ℚ`). -/
def to_sec (ms : ℤ) : ℚ := (ms : ℚ) / 1000

/-- `multiply_duration<duration_t>(d, ratio)`:
`duration_t(static_cast<int64_t>(d.count() * ratio))`. -/
def multiply_duration (d : ℤ) (ratio : ℚ) : ℤ := truncQ ((d : ℚ) * ratio)

/-- The `Config` struct (defaults from the source). `pwm_periode` is the
millisecond count of the `duration_t` field. -/
structure Config where
  logging : Bool := false
  invert : Bool := false
  max_transfer_rate : ℕ := 10 * 1024 * 1024
  min_transfer_rate : ℕ := 0
  pwm_periode : ℤ := 100
  off_periode_ratio : ℚ := 1 / 10
  led_pin : ℤ := 17

/-- `Config::calculate_periode_values`: converts the per-second rates to
per-period rates, `rate *= to_sec(pwm_periode)` — the `uint64_t` is
promoted to `double`, multiplied, and truncated back on assignment. -/
def Config.calculate_periode_values (cfg : Config) : Config :=
  { cfg with
    max_transfer_rate := (truncQ ((cfg.max_transfer_rate : ℚ) * to_sec cfg.pwm_periode)).toNat
    min_transfer_rate := (truncQ ((cfg.min_transfer_rate : ℚ) * to_sec cfg.pwm_periode)).toNat }

/-- `Config::calculate_durations(bytes)`.  Mirrors
```
auto clamped   = clamp(bytes, min_transfer_rate, max_transfer_rate);
auto ratio     = static_cast<double>(clamped - min_transfer_rate) / (max_transfer_rate - min_transfer_rate);
auto on_ration = ratio * (1.0 - off_periode_ratio);
return { multiply_duration(pwm_periode, on_ration),
         multiply_duration(pwm_periode, 1.0 - on_ration) };
```
Both subtractions are `uint64_t` subtractions.  When the divisor
`max_transfer_rate - min_transfer_rate` is zero the `double` division is
`0.0 / 0.0 = NaN` (the clamp forces the numerator to zero too) and the
subsequent cast to the integer tick count is undefined: that case is
`none`. -/
def Config.calculate_durations (cfg : Config) (bytes : ℕ) : Option (ℤ × ℤ) :=
  let clamped := clampU64 bytes cfg.min_transfer_rate cfg.max_transfer_rate
  let den := u64sub cfg.max_transfer_rate cfg.min_transfer_rate
  if den = 0 then none
  else
    let ratio : ℚ := (u64sub clamped cfg.min_transfer_rate : ℚ) / (den : ℚ)
    let on_ration := ratio * (1 - cfg.off_periode_ratio)
    some (multiply_duration cfg.pwm_periode on_ration,
          multiply_duration cfg.pwm_periode (1 - on_ration))

/-- `UsbMon::get_and_reset_accumulated_bytes`:
`exchange(accumulated_bytes, 0)` — returns the old value, new state is 0. -/
def get_and_reset_accumulated_bytes (accumulated_bytes : ℕ) : ℕ × ℕ :=
  (accumulated_bytes, 0)

/-- The pre-loop phase of `main` (src/unnamed/part_001, lines 278–288):
after `parse_arguments` the config is printed and
`calculate_periode_values` is applied, then the loop is entered.  `main`
performs no validation of `max_transfer_rate` against
`min_transfer_rate`; the only pre-loop exits are argument errors and the
device-open failure, neither of which depends on the rates. -/
def startup (cfg : Config) : Config := cfg.calculate_periode_values

/-- The byte count handed to `calculate_durations` in the first loop
iteration of `generate_led_pwm`: the accumulator starts at 0 and is
drained by `get_and_reset_accumulated_bytes`. -/
def first_cycle_durations (cfg : Config) : Option (ℤ × ℤ) :=
  cfg.calculate_durations (get_and_reset_accumulated_bytes 0).1

-- Basic facts about the embedded primitives.

theorem u64sub_self (a : ℕ) : u64sub a a = 0 := by
  simp [u64sub]

theorem u64sub_of_le {a b : ℕ} (hba : b ≤ a) (h : a < u64size) :
    u64sub a b = a - b := by
  have h1 : a + u64size - b = (a - b) + u64size := by omega
  have h2 : a - b < u64size := by omega
  simp [u64sub, h1, Nat.add_mod_right, Nat.mod_eq_of_lt h2]

theorem truncQ_of_nonneg {q : ℚ} (h : 0 ≤ q) : truncQ q = ⌊q⌋ := by
  simp [truncQ, h]

theorem truncQ_intCast (n : ℤ) : truncQ (n : ℚ) = n := by
  unfold truncQ
  split
  · exact Int.floor_intCast n
  · rw [show -(n : ℚ) = ((-n : ℤ) : ℚ) by push_cast; ring, Int.floor_intCast]
    ring

theorem clampU64_bounds {v lo hi : ℕ} (h : lo ≤ hi) :
    lo ≤ clampU64 v lo hi ∧ clampU64 v lo hi ≤ hi := by
  unfold clampU64
  split <;> [omega; (split <;> omega)]

theorem clampU64_mono {v w lo hi : ℕ} (h : lo ≤ hi) (hvw : v ≤ w) :
    clampU64 v lo hi ≤ clampU64 w lo hi := by
  unfold clampU64
  split_ifs <;> omega

theorem clampU64_of_le {v lo hi : ℕ} (hv : v ≤ lo) (h : lo ≤ hi) :
    clampU64 v lo hi = lo := by
  unfold clampU64
  split
  · rfl
  · split <;> omega

theorem clampU64_of_ge {v lo hi : ℕ} (hv : hi ≤ v) (h : lo ≤ hi) :
    clampU64 v lo hi = hi := by
  unfold clampU64
  split
  · omega
  · split <;> omega

/-- The fraction of the period the LED is on (`on_ration` in the source),
written with `ℕ` subtraction; it agrees with the source's `uint64_t`
subtractions whenever `min_transfer_rate < max_transfer_rate < 2^64`
(see `Config.calculate_durations_of_lt`). -/
def Config.onRation (cfg : Config) (bytes : ℕ) : ℚ :=
  ((clampU64 bytes cfg.min_transfer_rate cfg.max_transfer_rate
      - cfg.min_transfer_rate : ℕ) : ℚ)
    / ((cfg.max_transfer_rate - cfg.min_transfer_rate : ℕ) : ℚ)
    * (1 - cfg.off_periode_ratio)

theorem Config.calculate_durations_of_lt (cfg : Config) (bytes : ℕ)
    (hmm : cfg.min_transfer_rate < cfg.max_transfer_rate)
    (hW : cfg.max_transfer_rate < u64size) :
    cfg.calculate_durations bytes =
      some (truncQ ((cfg.pwm_periode : ℚ) * cfg.onRation bytes),
            truncQ ((cfg.pwm_periode : ℚ) * (1 - cfg.onRation bytes))) := by
  obtain ⟨hlo, hhi⟩ := clampU64_bounds (v := bytes) (le_of_lt hmm)
  have hden : u64sub cfg.max_transfer_rate cfg.min_transfer_rate =
      cfg.max_transfer_rate - cfg.min_transfer_rate :=
    u64sub_of_le (le_of_lt hmm) hW
  have hnum : u64sub (clampU64 bytes cfg.min_transfer_rate cfg.max_transfer_rate)
      cfg.min_transfer_rate =
      clampU64 bytes cfg.min_transfer_rate cfg.max_transfer_rate
        - cfg.min_transfer_rate :=
    u64sub_of_le hlo (lt_of_le_of_lt hhi hW)
  have hden0 : ¬ (u64sub cfg.max_transfer_rate cfg.min_transfer_rate = 0) := by
    omega
  simp only [Config.calculate_durations, hden0, if_false, hnum, hden,
    Config.onRation, multiply_duration]
  rw [if_neg (by omega)]

theorem Config.onRation_nonneg (cfg : Config) (bytes : ℕ)
    (ho1 : cfg.off_periode_ratio ≤ 1) : 0 ≤ cfg.onRation bytes := by
  unfold Config.onRation
  have h1 : (0 : ℚ) ≤ 1 - cfg.off_periode_ratio := by linarith
  positivity

theorem Config.onRation_le_one_sub (cfg : Config) (bytes : ℕ)
    (hmm : cfg.min_transfer_rate < cfg.max_transfer_rate)
    (ho1 : cfg.off_periode_ratio ≤ 1) :
    cfg.onRation bytes ≤ 1 - cfg.off_periode_ratio := by
  unfold Config.onRation
  obtain ⟨hlo, hhi⟩ := clampU64_bounds (v := bytes) (le_of_lt hmm)
  have hr : ((clampU64 bytes cfg.min_transfer_rate cfg.max_transfer_rate
      - cfg.min_transfer_rate : ℕ) : ℚ)
      / ((cfg.max_transfer_rate - cfg.min_transfer_rate : ℕ) : ℚ) ≤ 1 := by
    rw [div_le_one (by exact_mod_cast Nat.sub_pos_of_lt hmm)]
    exact_mod_cast Nat.sub_le_sub_right hhi _
  calc _ ≤ 1 * (1 - cfg.off_periode_ratio) := by
        apply mul_le_mul_of_nonneg_right hr (by linarith)
    _ = 1 - cfg.off_periode_ratio := one_mul _

theorem Config.onRation_le_one (cfg : Config) (bytes : ℕ)
    (hmm : cfg.min_transfer_rate < cfg.max_transfer_rate)
    (ho0 : 0 ≤ cfg.off_periode_ratio) (ho1 : cfg.off_periode_ratio ≤ 1) :
    cfg.onRation bytes ≤ 1 := by
  have := cfg.onRation_le_one_sub bytes hmm ho1
  linarith

theorem truncQ_mul_nonneg {p : ℤ} (hp : 0 ≤ p) {f : ℚ} (h0 : 0 ≤ f) :
    0 ≤ truncQ ((p : ℚ) * f) := by
  rw [truncQ_of_nonneg (by positivity)]
  exact Int.floor_nonneg.mpr (by positivity)

theorem truncQ_mul_le {p : ℤ} (hp : 0 ≤ p) {f : ℚ} (h0 : 0 ≤ f) (h1 : f ≤ 1) :
    truncQ ((p : ℚ) * f) ≤ p := by
  rw [truncQ_of_nonneg (by positivity)]
  calc ⌊(p : ℚ) * f⌋ ≤ ⌊((p : ℤ) : ℚ)⌋ := by
        apply Int.floor_le_floor
        calc (p : ℚ) * f ≤ (p : ℚ) * 1 := by
              apply mul_le_mul_of_nonneg_left h1 (by exact_mod_cast hp)
          _ = (p : ℚ) := mul_one _
    _ = p := Int.floor_intCast p

theorem truncQ_complement_sum {p : ℤ} (hp : 0 ≤ p) {f : ℚ} (h0 : 0 ≤ f)
    (h1 : f ≤ 1) :
    p - 1 ≤ truncQ ((p : ℚ) * f) + truncQ ((p : ℚ) * (1 - f)) ∧
      truncQ ((p : ℚ) * f) + truncQ ((p : ℚ) * (1 - f)) ≤ p := by
  have hpf : (0 : ℚ) ≤ (p : ℚ) * f := by positivity
  have hpf2 : (0 : ℚ) ≤ (p : ℚ) * (1 - f) := by
    have : (0 : ℚ) ≤ 1 - f := by linarith
    positivity
  rw [truncQ_of_nonneg hpf, truncQ_of_nonneg hpf2]
  have hsplit : (p : ℚ) * (1 - f) = -((p : ℚ) * f) + (p : ℤ) := by ring
  rw [hsplit, Int.floor_add_int, Int.floor_neg]
  have h2 := Int.floor_le_ceil ((p : ℚ) * f)
  have h3 := Int.ceil_le_floor_add_one ((p : ℚ) * f)
  omega

theorem truncQ_zero : truncQ 0 = 0 := by
  simp [truncQ]

theorem Config.onRation_mono (cfg : Config) {b1 b2 : ℕ} (hb : b1 ≤ b2)
    (hmm : cfg.min_transfer_rate < cfg.max_transfer_rate)
    (ho1 : cfg.off_periode_ratio ≤ 1) :
    cfg.onRation b1 ≤ cfg.onRation b2 := by
  unfold Config.onRation
  apply mul_le_mul_of_nonneg_right _ (by linarith)
  apply (div_le_div_iff_of_pos_right
    (c := ((cfg.max_transfer_rate - cfg.min_transfer_rate : ℕ) : ℚ)) _).mpr
  · exact_mod_cast Nat.sub_le_sub_right (clampU64_mono (le_of_lt hmm) hb) _
  · exact_mod_cast Nat.sub_pos_of_lt hmm

/-- The configuration of spec §8's worked example: `min_rate = 0`,
`max_rate = 1000` bytes/period, with the default `period = 100 ms` and
`off_fraction = 0.1`. -/
def cfgSpec : Config := { max_transfer_rate := 1000, min_transfer_rate := 0 }

/-- C4: for every valid configuration (`max_rate > min_rate`,
`off_fraction ∈ [0,1]`, non-negative period) and every byte count, the
durations returned by `calculate_durations` are non-negative, at most the
period, and sum to the period exactly or one millisecond less (each of
the two durations is truncated separately, so the sum may fall short of
the period by at most one tick). -/
theorem C4_calculate_durations_bounds (cfg : Config) (bytes : ℕ)
    (hmm : cfg.min_transfer_rate < cfg.max_transfer_rate)
    (hW : cfg.max_transfer_rate < u64size)
    (ho0 : 0 ≤ cfg.off_periode_ratio) (ho1 : cfg.off_periode_ratio ≤ 1)
    (hp : 0 ≤ cfg.pwm_periode) :
    ∃ dOn dLow : ℤ, cfg.calculate_durations bytes = some (dOn, dLow) ∧
      0 ≤ dOn ∧ dOn ≤ cfg.pwm_periode ∧ 0 ≤ dLow ∧ dLow ≤ cfg.pwm_periode ∧
      cfg.pwm_periode - 1 ≤ dOn + dLow ∧ dOn + dLow ≤ cfg.pwm_periode := by
  have h0 := cfg.onRation_nonneg bytes ho1
  have h1 := cfg.onRation_le_one bytes hmm ho0 ho1
  refine ⟨_, _, cfg.calculate_durations_of_lt bytes hmm hW,
    truncQ_mul_nonneg hp h0, truncQ_mul_le hp h0 h1,
    truncQ_mul_nonneg hp (by linarith), truncQ_mul_le hp (by linarith) (by linarith),
    (truncQ_complement_sum hp h0 h1).1, (truncQ_complement_sum hp h0 h1).2⟩

theorem C4_calculate_durations_bounds_witness :
    ∃ dOn dLow : ℤ, cfgSpec.calculate_durations 500 = some (dOn, dLow) ∧
      0 ≤ dOn ∧ dOn ≤ cfgSpec.pwm_periode ∧ 0 ≤ dLow ∧
      dLow ≤ cfgSpec.pwm_periode ∧
      cfgSpec.pwm_periode - 1 ≤ dOn + dLow ∧ dOn + dLow ≤ cfgSpec.pwm_periode :=
  C4_calculate_durations_bounds cfgSpec 500 (by norm_num [cfgSpec])
    (by norm_num [cfgSpec, u64size]) (by norm_num [cfgSpec])
    (by norm_num [cfgSpec]) (by norm_num [cfgSpec])

/-- C5: with `off_fraction = 0.1`, `period = 100 ms`, `min_rate = 0`,
`max_rate = 1000` bytes/period, an input of 500 bytes yields
`on = 45 ms` and `low = 55 ms` (ratio `0.5`, on-fraction `0.45`). -/
theorem C5_calculate_durations_example :
    cfgSpec.calculate_durations 500 = some (45, 55) := by
  norm_num [Config.calculate_durations, clampU64, u64sub, u64size,
    multiply_duration, truncQ, cfgSpec]

/-- C7: for every byte count at or below `min_rate` (with
`min_rate < max_rate`), `calculate_durations` returns `on = 0` and
`low = period` — the LED is fully off for the cycle. -/
theorem C7_calculate_durations_below_min (cfg : Config) (bytes : ℕ)
    (hb : bytes ≤ cfg.min_transfer_rate)
    (hmm : cfg.min_transfer_rate < cfg.max_transfer_rate)
    (hW : cfg.max_transfer_rate < u64size) :
    cfg.calculate_durations bytes = some (0, cfg.pwm_periode) := by
  have hf : cfg.onRation bytes = 0 := by
    unfold Config.onRation
    rw [clampU64_of_le hb (le_of_lt hmm)]
    simp
  rw [cfg.calculate_durations_of_lt bytes hmm hW, hf]
  simp [truncQ_zero, truncQ_intCast]

theorem C7_calculate_durations_below_min_witness :
    cfgSpec.calculate_durations 0 = some (0, 100) := by
  have h := C7_calculate_durations_below_min cfgSpec 0 (by norm_num [cfgSpec])
    (by norm_num [cfgSpec]) (by norm_num [cfgSpec, u64size])
  simpa [cfgSpec] using h

/-- C8: holding a valid configuration fixed, the on-duration returned by
`calculate_durations` is monotonic non-decreasing in the byte count. -/
theorem C8_calculate_durations_on_mono (cfg : Config) (b1 b2 : ℕ)
    (hb : b1 ≤ b2)
    (hmm : cfg.min_transfer_rate < cfg.max_transfer_rate)
    (hW : cfg.max_transfer_rate < u64size)
    (ho1 : cfg.off_periode_ratio ≤ 1)
    (hp : 0 ≤ cfg.pwm_periode)
    (d1 d2 : ℤ × ℤ)
    (h1 : cfg.calculate_durations b1 = some d1)
    (h2 : cfg.calculate_durations b2 = some d2) :
    d1.1 ≤ d2.1 := by
  rw [cfg.calculate_durations_of_lt b1 hmm hW] at h1
  rw [cfg.calculate_durations_of_lt b2 hmm hW] at h2
  have e1 : d1.1 = truncQ ((cfg.pwm_periode : ℚ) * cfg.onRation b1) := by
    cases h1; rfl
  have e2 : d2.1 = truncQ ((cfg.pwm_periode : ℚ) * cfg.onRation b2) := by
    cases h2; rfl
  have hq : (0 : ℚ) ≤ (cfg.pwm_periode : ℚ) := by exact_mod_cast hp
  rw [e1, e2, truncQ_of_nonneg (mul_nonneg hq (cfg.onRation_nonneg b1 ho1)),
    truncQ_of_nonneg (mul_nonneg hq (cfg.onRation_nonneg b2 ho1))]
  exact Int.floor_le_floor
    (mul_le_mul_of_nonneg_left (cfg.onRation_mono hb hmm ho1) hq)

theorem C8_calculate_durations_on_mono_witness : ((27, 73) : ℤ × ℤ).1 ≤ ((45, 55) : ℤ × ℤ).1 :=
  C8_calculate_durations_on_mono cfgSpec 300 500 (by norm_num)
    (by norm_num [cfgSpec]) (by norm_num [cfgSpec, u64size]) (by norm_num [cfgSpec])
    (by norm_num [cfgSpec]) (27, 73) (45, 55)
    (by norm_num [Config.calculate_durations, clampU64, u64sub, u64size,
      multiply_duration, truncQ, cfgSpec])
    (by norm_num [Config.calculate_durations, clampU64, u64sub, u64size,
      multiply_duration, truncQ, cfgSpec])

/-- A valid configuration (`min_rate = 0 < max_rate = 1000`,
`off_fraction = 0.1 > 0`) with a 5 ms period: at saturation the enforced
off time `period * off_fraction = 0.5 ms` truncates to 0 ms. -/
def cfgSolid : Config :=
  { max_transfer_rate := 1000, min_transfer_rate := 0, pwm_periode := 5 }

/-- C6 counterexample: with the valid configuration `cfgSolid`
(`period = 5 ms`, `off_fraction = 0.1 > 0`) and a saturating byte count,
`calculate_durations` returns `low = 0` — the LED is fully solid for the
cycle even though `off_fraction > 0`, because `period * off_fraction =
0.5 ms` truncates to zero ticks. -/
theorem C6_fully_solid_counterexample :
    cfgSolid.calculate_durations 1000 = some (4, 0) := by
  norm_num [Config.calculate_durations, clampU64, u64sub, u64size,
    multiply_duration, truncQ, cfgSolid]

/-- C6 (amended): for every byte count at or above `max_rate` (holding a
valid configuration fixed) the durations saturate: `calculate_durations`
returns exactly what it returns at `bytes = max_rate` (the integer clamp
makes the computations identical), and each duration is no larger than
its ideal value (`period * (1 - off_fraction)` for on,
`period * off_fraction` for low) and falls short of it by less than two
milliseconds — one lost to duration truncation, and up to one more when
the `double` products land just below an integer tick boundary (in IEEE
arithmetic `period = 100 ms`, `off = 0.1` saturated gives `low = 9 ms`,
not 10).  No minimum low duration is guaranteed: the LED can be fully
solid, as the counterexample shows. -/
theorem C6_calculate_durations_saturated (cfg : Config) (bytes : ℕ)
    (hb : cfg.max_transfer_rate ≤ bytes)
    (hmm : cfg.min_transfer_rate < cfg.max_transfer_rate)
    (hW : cfg.max_transfer_rate < u64size)
    (ho0 : 0 ≤ cfg.off_periode_ratio) (ho1 : cfg.off_periode_ratio ≤ 1)
    (hp : 0 ≤ cfg.pwm_periode) :
    cfg.calculate_durations bytes =
        cfg.calculate_durations cfg.max_transfer_rate ∧
      ∃ dOn dLow : ℤ, cfg.calculate_durations bytes = some (dOn, dLow) ∧
        (cfg.pwm_periode : ℚ) * (1 - cfg.off_periode_ratio) - 2 < dOn ∧
        (dOn : ℚ) ≤ (cfg.pwm_periode : ℚ) * (1 - cfg.off_periode_ratio) ∧
        (cfg.pwm_periode : ℚ) * cfg.off_periode_ratio - 2 < dLow ∧
        (dLow : ℚ) ≤ (cfg.pwm_periode : ℚ) * cfg.off_periode_ratio := by
  have hq : (0 : ℚ) ≤ (cfg.pwm_periode : ℚ) := by exact_mod_cast hp
  have hf : cfg.onRation bytes = 1 - cfg.off_periode_ratio := by
    unfold Config.onRation
    rw [clampU64_of_ge hb (le_of_lt hmm), div_self
      (Nat.cast_ne_zero.mpr (by omega)), one_mul]
  have hcomp : 1 - cfg.onRation bytes = cfg.off_periode_ratio := by
    rw [hf]; ring
  have hon0 : (0 : ℚ) ≤ (cfg.pwm_periode : ℚ) * (1 - cfg.off_periode_ratio) :=
    mul_nonneg hq (by linarith)
  have hlow0 : (0 : ℚ) ≤ (cfg.pwm_periode : ℚ) * cfg.off_periode_ratio :=
    mul_nonneg hq ho0
  constructor
  · have hsat : cfg.onRation bytes = cfg.onRation cfg.max_transfer_rate := by
      unfold Config.onRation
      rw [clampU64_of_ge hb (le_of_lt hmm),
        clampU64_of_ge (le_refl _) (le_of_lt hmm)]
    rw [cfg.calculate_durations_of_lt bytes hmm hW,
      cfg.calculate_durations_of_lt cfg.max_transfer_rate hmm hW, hsat]
  refine ⟨_, _, cfg.calculate_durations_of_lt bytes hmm hW, ?_, ?_, ?_, ?_⟩
  · rw [hf, truncQ_of_nonneg hon0]
    have := Int.sub_one_lt_floor ((cfg.pwm_periode : ℚ) *
      (1 - cfg.off_periode_ratio))
    linarith
  · rw [hf, truncQ_of_nonneg hon0]
    exact Int.floor_le _
  · rw [hcomp, truncQ_of_nonneg hlow0]
    have := Int.sub_one_lt_floor ((cfg.pwm_periode : ℚ) *
      cfg.off_periode_ratio)
    linarith
  · rw [hcomp, truncQ_of_nonneg hlow0]
    exact Int.floor_le _

theorem C6_calculate_durations_saturated_witness :
    cfgSpec.calculate_durations 1000 =
        cfgSpec.calculate_durations cfgSpec.max_transfer_rate ∧
      ∃ dOn dLow : ℤ, cfgSpec.calculate_durations 1000 = some (dOn, dLow) ∧
        (cfgSpec.pwm_periode : ℚ) * (1 - cfgSpec.off_periode_ratio) - 2 < dOn ∧
        (dOn : ℚ) ≤ (cfgSpec.pwm_periode : ℚ) * (1 - cfgSpec.off_periode_ratio) ∧
        (cfgSpec.pwm_periode : ℚ) * cfgSpec.off_periode_ratio - 2 < dLow ∧
        (dLow : ℚ) ≤ (cfgSpec.pwm_periode : ℚ) * cfgSpec.off_periode_ratio :=
  C6_calculate_durations_saturated cfgSpec 1000 (by norm_num [cfgSpec])
    (by norm_num [cfgSpec]) (by norm_num [cfgSpec, u64size])
    (by norm_num [cfgSpec]) (by norm_num [cfgSpec]) (by norm_num [cfgSpec])

/-- When the per-period rates are equal the divisor
`max_transfer_rate - min_transfer_rate` is zero, the clamp makes the
numerator zero as well, and the `double` division is `0.0 / 0.0 = NaN`
(the `none` case of the embedding). -/
theorem Config.calculate_durations_of_eq (cfg : Config) (bytes : ℕ)
    (h : cfg.max_transfer_rate = cfg.min_transfer_rate) :
    cfg.calculate_durations bytes = none := by
  simp only [Config.calculate_durations, h, u64sub_self, if_true]

/-- A configuration whose per-period rates coincide: `max_rate = min_rate
= 1000` bytes with a one-second period (`to_sec` factor 1, so the rates
are unchanged by the conversion). -/
def cfgEqual : Config :=
  { max_transfer_rate := 1000, min_transfer_rate := 1000, pwm_periode := 1000 }

/-- C2 counterexample: with `max_rate == min_rate`, `main`'s pre-loop
phase (`startup`) completes — there is no validation and no diagnostic —
and the first loop iteration already evaluates `calculate_durations`
with a zero divisor, producing a NaN/undefined duration (`none`).  The
program does not fail fast before entering the loop. -/
theorem C2_no_fail_fast_counterexample :
    (startup cfgEqual).max_transfer_rate = (startup cfgEqual).min_transfer_rate ∧
      first_cycle_durations (startup cfgEqual) = none := by
  constructor
  · norm_num [startup, Config.calculate_periode_values, to_sec, truncQ, cfgEqual]
  · exact Config.calculate_durations_of_eq _ _ (by
      norm_num [startup, Config.calculate_periode_values, to_sec, truncQ, cfgEqual])

/-- C2 (amended): the program performs no rate validation at all —
`startup` is total — and whenever the configuration the loop receives
has `max_rate == min_rate`, every call to `calculate_durations` divides
`0.0` by `0.0` and yields NaN/undefined durations (`none`) instead of a
fail-fast diagnostic. -/
theorem C2_equal_rates_yield_nan (cfg : Config) (bytes : ℕ)
    (h : (startup cfg).max_transfer_rate = (startup cfg).min_transfer_rate) :
    (startup cfg).calculate_durations bytes = none :=
  Config.calculate_durations_of_eq _ _ h

theorem C2_equal_rates_yield_nan_witness :
    (startup cfgEqual).calculate_durations 0 = none :=
  C2_equal_rates_yield_nan cfgEqual 0 (by
    norm_num [startup, Config.calculate_periode_values, to_sec, truncQ, cfgEqual])

/-- The configuration of claim C10: `max_rate = 5` bytes/s,
`min_rate = 0`, default `period = 100 ms`.  The configured rates satisfy
`max_rate > min_rate`, yet `5 * 0.1 = 0.5` truncates to `0` in the
per-period conversion. -/
def cfgLowRate : Config := { max_transfer_rate := 5, min_transfer_rate := 0 }

/-- C10: the per-second to per-period conversion multiplies the integer
rates by the period in seconds and truncates back to integers, so the
configuration `max_rate = 5 bytes/s, min_rate = 0, period = 100 ms` —
with `max_rate` strictly greater than `min_rate` — is stored with
per-period `max_rate = min_rate = 0`, and every subsequent
`calculate_durations` call divides by zero (`none`, the NaN/undefined
case), with no guard anywhere. -/
theorem C10_conversion_collapses_rates :
    cfgLowRate.min_transfer_rate < cfgLowRate.max_transfer_rate ∧
      cfgLowRate.calculate_periode_values.max_transfer_rate =
        cfgLowRate.calculate_periode_values.min_transfer_rate ∧
      ∀ bytes : ℕ,
        cfgLowRate.calculate_periode_values.calculate_durations bytes = none := by
  refine ⟨by norm_num [cfgLowRate], ?_, ?_⟩
  · norm_num [Config.calculate_periode_values, to_sec, truncQ, cfgLowRate]
  · intro bytes
    exact Config.calculate_durations_of_eq _ _ (by
      norm_num [Config.calculate_periode_values, to_sec, truncQ, cfgLowRate])

/-- `constexpr auto type_offset = 8` — offset of the one-byte record
type discriminator in a usbmon record. -/
def type_offset : ℕ := 8

/-- `constexpr auto length_offset = 32` — offset of the 4-byte length
field in a usbmon record. -/
def length_offset : ℕ := 32

/-- ASCII `'S'` (submission record). -/
def submissionByte : ℕ := 83

/-- ASCII `'C'` (callback/completion record). -/
def callbackByte : ℕ := 67

/-- `*reinterpret_cast<unsigned int*>(&buffer[off])`: the little-endian
32-bit value at offset `off` of the byte buffer. -/
def read_u32le (buffer : ℕ → ℕ) (off : ℕ) : ℕ :=
  buffer off + 256 * buffer (off + 1) + 65536 * buffer (off + 2) +
    16777216 * buffer (off + 3)

/-- Environment outcome of one read attempt in
`UsbMon::get_transfered_bytes`: `select` fails (`-1`), `select` times out
(`0`), or `select` reports data and `read` returns `ret` bytes into
`buffer`. -/
inductive ReadOutcome where
  | selectError
  | selectTimeout
  | readData (ret : ℤ) (buffer : ℕ → ℕ)

/-- `UsbMon::get_transfered_bytes` (src/unnamed/part_001, lines 136–153)
as a function of the read attempt's outcome:
```
int ret = select(fd+1, &waiting, nullptr, nullptr, &tv);
if (ret == -1 || ret == 0) return 0;
if (read(fd, &buffer, 64) != 48) return 0;
if (buffer[type_offset] != 'S' && buffer[type_offset] != 'C') return 0;
return *reinterpret_cast<unsigned int*>(&buffer[length_offset]);
```
The return type is `uint64_t`: there is no error channel — a `select`
error, a timeout, and a short read all return 0 bytes alike. -/
def get_transfered_bytes : ReadOutcome → ℕ
  | ReadOutcome.selectError => 0
  | ReadOutcome.selectTimeout => 0
  | ReadOutcome.readData ret buffer =>
      if ret ≠ 48 then 0
      else if buffer type_offset ≠ submissionByte ∧
          buffer type_offset ≠ callbackByte then 0
      else read_u32le buffer length_offset

/-- The `while (now() < until)` loop of `UsbMon::accumulate_bytes_for`.
`clock` gives the value of the `n`-th call to `now()` in the whole
enclosing `accumulate_bytes_for` call (call 0 is `tsc`); each iteration
spends two calls — one in the loop condition, one inside
`get_timeval_until` — and `outcomes` gives the result of the `r`-th read
attempt.  `fuel` bounds the number of iterations modelled; on exhaustion
the current state is returned (the claims below only use runs where the
loop exits by its own condition).  Returns (index of the `now()` call
whose loop check failed, number of read attempts made, final
accumulated byte count). -/
def abf_loop (clock : ℕ → ℤ) (outcomes : ℕ → ReadOutcome) (deadline : ℤ) :
    ℕ → ℕ → ℕ → ℕ → ℕ × ℕ × ℕ
  | 0, c, r, a => (c, r, a)
  | fuel + 1, c, r, a =>
      if clock c < deadline then
        abf_loop clock outcomes deadline fuel (c + 2) (r + 1)
          (a + get_transfered_bytes (outcomes r))
      else (c, r, a)

/-- `UsbMon::accumulate_bytes_for` (src/unnamed/part_001, lines 122–129):
```
auto tsc   = now();
auto until = tsc + dur;
while ( now() < until ) {
    accumulated_bytes += get_transfered_bytes(until);
}
return chrono::duration_cast<duration_t>(now() - tsc);
```
Deterministic given the environment (`clock`, `outcomes`).  Returns
(number of read attempts, final `accumulated_bytes` starting from `acc`,
elapsed time reported to the caller). -/
def accumulate_bytes_for (clock : ℕ → ℤ) (outcomes : ℕ → ReadOutcome)
    (fuel acc : ℕ) (dur : ℤ) : ℕ × ℕ × ℤ :=
  let tsc := clock 0
  match abf_loop clock outcomes (tsc + dur) fuel 1 0 acc with
  | (c, r, a) => (r, a, clock (c + 1) - tsc)

/-- A 48-byte usbmon record with type byte `t` and little-endian length
field `len`, all other bytes zero. -/
def mkRecord (t len : ℕ) : ℕ → ℕ := fun i =>
  if i = type_offset then t
  else if i = length_offset then len % 256
  else if i = length_offset + 1 then len / 256 % 256
  else if i = length_offset + 2 then len / 65536 % 256
  else if i = length_offset + 3 then len / 16777216 % 256
  else 0

/-- The record sequence of spec §8's RateMonitor test: three
completion-type records with lengths 100, 200, 50 and two
submission-type records with length 999 each. -/
def specTrace : ℕ → ReadOutcome := fun r =>
  match r with
  | 0 => ReadOutcome.readData 48 (mkRecord callbackByte 100)
  | 1 => ReadOutcome.readData 48 (mkRecord callbackByte 200)
  | 2 => ReadOutcome.readData 48 (mkRecord callbackByte 50)
  | 3 => ReadOutcome.readData 48 (mkRecord submissionByte 999)
  | _ => ReadOutcome.readData 48 (mkRecord submissionByte 999)

/-- A clock that advances one millisecond per `now()` call. -/
def unitClock : ℕ → ℤ := fun n => (n : ℤ)

/-- C1: feeding the monitor the five records of spec §8 (3 completions
with lengths 100, 200, 50 and 2 submissions with length 999 each) makes
it accumulate 2348 — not 350 — because the type filter at
src/unnamed/part_001 line 150 accepts *both* `'S'` and `'C'` records,
although its own comment says "only accumulate the CALLBACK type".  A
lone submission record of length 999 contributes 999, not 0. -/
theorem C1_submissions_are_counted :
    accumulate_bytes_for unitClock specTrace 9 0 11 = (5, 2348, 12) ∧
      get_transfered_bytes
        (ReadOutcome.readData 48 (mkRecord submissionByte 999)) = 999 ∧
      get_and_reset_accumulated_bytes 2348 = (2348, 0) ∧ (2348 : ℕ) ≠ 350 := by
  refine ⟨by decide, by decide, rfl, by decide⟩

/-- A trace whose first read attempt is a `select` error (`-1`), followed
by completion records of length 100. -/
def errorTrace : ℕ → ReadOutcome := fun r =>
  match r with
  | 0 => ReadOutcome.selectError
  | _ => ReadOutcome.readData 48 (mkRecord callbackByte 100)

/-- C3 counterexample: an I/O error on the handle (`select` returning
`-1`) yields 0 bytes — indistinguishable from a timeout — and the
accumulate loop simply continues: after the error attempt it performs a
second read attempt and keeps accumulating (final state: 2 attempts, 100
bytes, no error escalated; the return type of `get_transfered_bytes` has
no error channel at all). -/
theorem C3_select_error_swallowed_counterexample :
    get_transfered_bytes ReadOutcome.selectError = 0 ∧
      get_transfered_bytes ReadOutcome.selectTimeout = 0 ∧
      accumulate_bytes_for unitClock errorTrace 9 0 5 = (2, 100, 6) := by
  refine ⟨rfl, rfl, by decide⟩

/-- C3 (amended): every failing read attempt — `select` returning `-1`,
`select` timing out, or `read` returning anything other than 48 bytes
(including the error return `-1`) — contributes zero bytes exactly like
an empty read, and the loop retries until the deadline; no I/O error is
escalated (lines 141–148 of src/unnamed/part_001 treat `ret == -1` and
`ret == 0` identically). -/
theorem C3_io_errors_treated_as_timeouts (ret : ℤ) (buffer : ℕ → ℕ)
    (h : ret ≠ 48) :
    get_transfered_bytes ReadOutcome.selectError = 0 ∧
      get_transfered_bytes ReadOutcome.selectTimeout = 0 ∧
      get_transfered_bytes (ReadOutcome.readData ret buffer) = 0 := by
  refine ⟨rfl, rfl, ?_⟩
  simp [get_transfered_bytes, h]

theorem C3_io_errors_treated_as_timeouts_witness :
    get_transfered_bytes ReadOutcome.selectError = 0 ∧
      get_transfered_bytes ReadOutcome.selectTimeout = 0 ∧
      get_transfered_bytes
        (ReadOutcome.readData (-1) (mkRecord callbackByte 100)) = 0 :=
  C3_io_errors_treated_as_timeouts (-1) (mkRecord callbackByte 100) (by decide)

/-- C9: calling `accumulate_bytes_for` with a non-positive duration (an
already-passed deadline) returns immediately: the very first loop check
fails (any monotone clock), so no read attempt is made, the accumulated
byte count is unchanged, and the reported elapsed time is just the gap
between the two bookkeeping `now()` calls — no wait happens in
between. -/
theorem C9_accumulate_for_passed_deadline (clock : ℕ → ℤ)
    (outcomes : ℕ → ReadOutcome) (fuel acc : ℕ) (dur : ℤ)
    (hdur : dur ≤ 0) (hclock : clock 0 ≤ clock 1) :
    accumulate_bytes_for clock outcomes (fuel + 1) acc dur =
      (0, acc, clock 2 - clock 0) := by
  have hcond : ¬ (clock 1 < clock 0 + dur) := by omega
  simp [accumulate_bytes_for, abf_loop, hcond]

theorem C9_accumulate_for_passed_deadline_witness :
    accumulate_bytes_for unitClock specTrace 3 7 (-5) = (0, 7, 2) := by
  have h := C9_accumulate_for_passed_deadline unitClock specTrace 2 7 (-5)
    (by norm_num) (by norm_num [unitClock])
  simpa [unitClock] using h
